import Mathlib

/-!
Verification of the GHCN columnizing pipeline (`gcos_columnize.go`, with the
per-field flag variant from `gcos_monthly_concurrent.go`).

A raw input line is modelled as a `List Char` (Go strings are byte sequences;
the GHCN data is ASCII, so characters and bytes coincide).  Go's abrupt
termination (`panic`) is modelled by returning `none`; a successful
computation returns `some` of its result.  Temperature values are modelled as
rationals (`ℚ`): the float64 arithmetic the scripts perform on them is limited
to dividing small integers by 10, which is exact in the model.
-/

/-- One data value, mirroring `rec_t` in gcos_columnize.go:
station id, year, month (1..12), day (1..31), and the value. -/
structure rec_t where
  Id : List Char
  Year : Int
  Month : Int
  Day : Int
  Value : ℚ
deriving DecidableEq

/-- Numeric value of an ASCII digit character. -/
def digitVal (c : Char) : Nat := c.toNat - 48

/-- Reads a nonempty all-digit character list as a natural number
(helper for `atoi`). -/
def natOfDigits (cs : List Char) : Option Nat :=
  if cs ≠ [] ∧ cs.all Char.isDigit then
    some (cs.foldl (fun a c => 10 * a + digitVal c) 0)
  else none

/-- Models Go's `strconv.Atoi`: an optional sign followed by at least one
digit; anything else is an error (`none`). -/
def atoi : List Char → Option Int
  | '-' :: rest => (natOfDigits rest).map (fun n => -(n : Int))
  | '+' :: rest => (natOfDigits rest).map (fun n => (n : Int))
  | cs => (natOfDigits cs).map (fun n => (n : Int))

/-- Models `strconv.ParseFloat` restricted to the integer-syntax inputs that
occur in GHCN daily value fields (an optional sign and decimal digits; the
fields are 5-character signed integers in tenths of a degree).  Inputs that
`Atoi` rejects — such as the empty string or a string with stray characters —
are exactly the inputs `ParseFloat` rejects on this fragment. -/
def parseFloatQ (cs : List Char) : Option ℚ :=
  (atoi cs).map (fun n => (n : ℚ))

/-- Number of iterations of the daily-field loop
`for pos := 21; pos < len(line); pos += 8`. -/
def numFields (cs : List Char) : Nat := (cs.length - 21 + 7) / 8

/-- Models the Go slice expression `line[pos : pos+5]`, which panics (`none`)
when the upper bound exceeds the line length. -/
def slice5 (cs : List Char) (pos : Nat) : Option (List Char) :=
  if pos + 5 ≤ cs.length then some ((cs.drop pos).take 5) else none

/-- Extracts and parses the `k`-th daily value of a line:
`strconv.ParseFloat(strings.TrimLeft(line[pos:pos+5], " "), 64)`
with `pos = 21 + 8*k`. -/
def parseField (cs : List Char) (k : Nat) : Option ℚ :=
  (slice5 cs (21 + 8 * k)).bind (fun f => parseFloatQ (f.dropWhile (fun c => c == ' ')))

/-- The daily-field loop of `parse` in gcos_columnize.go, iterating over the
field indices `ks`.  Each iteration first tests the fixed byte `line[26]`
(skipping the field if it is not blank), then parses the 5-character value
(aborting the run on failure), skips the `-9999` missing sentinel, and
otherwise emits a record with the value divided by 10. -/
def parseDays (cs : List Char) (id : List Char) (year month : Int) :
    List Nat → Option (List rec_t)
  | [] => some []
  | k :: ks =>
    match cs[26]? with
    | none => none
    | some c =>
      if c ≠ ' ' then parseDays cs id year month ks
      else
        match parseField cs k with
        | none => none
        | some v =>
          if v = -9999 then parseDays cs id year month ks
          else
            (parseDays cs id year month ks).map
              (fun rest =>
                { Id := id, Year := year, Month := month,
                  Day := (k : Int) + 1, Value := v / 10 } :: rest)

/-- Models `parse` in gcos_columnize.go: reads the station id `line[0:11]`,
the year `line[11:15]` and the month `line[15:17]` (aborting on `Atoi`
failure), then runs the daily-field loop.  The emitted records are returned
in loop order (in the script they are sent over `rec_chan`). -/
def goParse (cs : List Char) : Option (List rec_t) :=
  match atoi ((cs.drop 11).take 4), atoi ((cs.drop 15).take 2) with
  | some year, some month =>
      parseDays cs (cs.take 11) year month (List.range (numFields cs))
  | _, _ => none

/-- Models the per-line element-type filter in `processFile`:
`line[17:21]` must equal the configured `eltype`, otherwise the line is
skipped (no records, no abort).  A line shorter than 21 bytes makes the Go
slice expression panic. -/
def processLine (eltype : List Char) (cs : List Char) : Option (List rec_t) :=
  if cs.length < 21 then none
  else if (cs.drop 17).take 4 = eltype then goParse cs else some []

/-- The data in one line of the input file, mirroring `lrec_t` in
gcos_monthly_concurrent.go. -/
structure lrec_t where
  Id : List Char
  Year : Int
  Month : Int
  Values : List ℚ
  IsValid : List Bool
deriving DecidableEq

/-- The daily-field loop of `parse` in gcos_monthly_concurrent.go: each
iteration first tests that field's own quality flag `line[pos+6]` (recording
value 0 and validity `false` if it is not blank), then parses the 5-character
value, aborting the run on failure. -/
def parseMonthlyDays (cs : List Char) : List Nat → Option (List ℚ × List Bool)
  | [] => some ([], [])
  | k :: ks =>
    match cs[21 + 8 * k + 6]? with
    | none => none
    | some c =>
      if c ≠ ' ' then (parseMonthlyDays cs ks).map (fun p => (0 :: p.1, false :: p.2))
      else
        match parseField cs k with
        | none => none
        | some v => (parseMonthlyDays cs ks).map (fun p => (v :: p.1, true :: p.2))

/-- Models `parse` in gcos_monthly_concurrent.go (the per-field flag
variant). -/
def parseMonthly (cs : List Char) : Option lrec_t :=
  match atoi ((cs.drop 11).take 4), atoi ((cs.drop 15).take 2) with
  | some year, some month =>
      (parseMonthlyDays cs (List.range (numFields cs))).map
        (fun p =>
          { Id := cs.take 11, Year := year, Month := month,
            Values := p.1, IsValid := p.2 })
  | _, _ => none

/-- The `Less` method of `recslice` in gcos_columnize.go: strict comparison
by station id, then year, then month, then day (and `false` on a full tie). -/
def recLess (a b : rec_t) : Bool :=
  if a.Id < b.Id then true
  else if b.Id < a.Id then false
  else if a.Year < b.Year then true
  else if b.Year < a.Year then false
  else if a.Month < b.Month then true
  else if b.Month < a.Month then false
  else if a.Day < b.Day then true
  else if b.Day < a.Day then false
  else false

/-- The composite sort key of a record, as a lexicographic tuple
(station id, year, month, day). -/
def lexKey (r : rec_t) : Lex (List Char × Lex (Int × Lex (Int × Int))) :=
  toLex (r.Id, toLex (r.Year, toLex (r.Month, r.Day)))

/-- The non-strict order used to model `sort.Sort(recslice(x))`:
`a` may precede `b` exactly when `b` is not `Less` than `a`. -/
def goLe (a b : rec_t) : Prop := recLess b a = false

instance : DecidableRel goLe := fun a b => by unfold goLe; infer_instance

/-- Strict composite-key order on records (used to state antisymmetry where
the keys are distinct). -/
def keyLT (a b : rec_t) : Prop := lexKey a < lexKey b

/-- Models the call `sort.Sort(recslice(x))` in `doSortWrite`: a sort of the
record slice with respect to the `Less` method.  (`sort.Sort` promises a
permutation that is sorted with respect to `Less`; insertion sort is such a
sort.) -/
def sortRecs (x : List rec_t) : List rec_t := List.insertionSort goLe x

/-- Models the Go format verb `%02d` applied to a month or day. -/
def pad2 (n : Int) : String :=
  if 0 ≤ n ∧ n < 10 then "0" ++ toString n else toString n

/-- Models the Go format verb `%4d` applied to the year (space padding on the
left to width 4). -/
def pad4 (n : Int) : String :=
  String.mk (List.replicate (4 - (toString n).length) ' ') ++ toString n

/-- Models `fmt.Sprintf("%4d-%02d-%02d", y, m, d)` in `doSortWrite`. -/
def dateStr (y m d : Int) : String := pad4 y ++ "-" ++ pad2 m ++ "-" ++ pad2 d

/-- The projection step of `doSortWrite`: split a record sequence into the
three aligned output sequences (station ids, formatted dates, values). -/
def outTriple (x : List rec_t) : List (List Char) × List String × List ℚ :=
  (x.map (fun r => r.Id),
   x.map (fun r => dateStr r.Year r.Month r.Day),
   x.map (fun r => r.Value))

/-- The sort-and-project core of `doSortWrite` for one partition, applied to
the records decoded from that partition's staging file. -/
def doSortOut (x : List rec_t) : List (List Char) × List String × List ℚ :=
  outTriple (sortRecs x)

/-- The per-partition state held by the aggregation consumer: `file` is the
content already appended to the partition's staging file (`raw.bin`, written
by `flush`) and `buf` is the in-memory buffer (`year_buf`).  Both are modelled
as the record sequences they encode: the gob stream for a year is produced by
a single encoder and chopped at flush boundaries, so concatenating the
flushed chunks reconstructs the encoded record sequence exactly. -/
structure PartState where
  file : List rec_t
  buf : List rec_t
deriving DecidableEq

/-- The map from years to partition states (`year_buf` together with the
staging files); `none` means the year has no buffer (`year_gob[year] == nil`). -/
abbrev ConsumerState := Int → Option PartState

/-- The state after the loop `for year := 1833; year <= 2016; year++ {
setupYear(year) }` in `processRaw`: exactly the years 1833..2016 have a
buffer, each empty, with its staging file truncated to empty. -/
def initState : ConsumerState :=
  fun y => if 1833 ≤ y ∧ y ≤ 2016 then some ⟨[], []⟩ else none

/-- One iteration of the consumer loop `for r := range rec_chan` in
`processRaw`, parametrized by the per-record gob size `sz` and by the flush
threshold `th` (`buf_size`): a record whose year has no buffer panics
(`none`); otherwise the record is appended to its year's buffer and, if the
buffer size now exceeds the threshold, the buffer is appended to the staging
file and cleared (`flush`). -/
def routeStep (sz : rec_t → Nat) (th : Nat) (st : ConsumerState) (r : rec_t) :
    Option ConsumerState :=
  match st r.Year with
  | none => none
  | some p =>
      if ((p.buf ++ [r]).map sz).sum > th then
        some (fun y => if y = r.Year then some ⟨p.file ++ (p.buf ++ [r]), []⟩ else st y)
      else
        some (fun y => if y = r.Year then some ⟨p.file, p.buf ++ [r]⟩ else st y)

/-- The consumer loop of `processRaw`, reading the routed records in their
arrival order. -/
def processObs (sz : rec_t → Nat) (th : Nat) :
    List rec_t → ConsumerState → Option ConsumerState
  | [], st => some st
  | r :: rs, st =>
    match routeStep sz th st r with
    | none => none
    | some st' => processObs sz th rs st'

/-- The shutdown loop `for year := range year_buf { flush(year) }`: every
buffer (empty or not) is appended to its staging file and cleared. -/
def finalFlush (st : ConsumerState) : ConsumerState :=
  fun y => (st y).map (fun p => ⟨p.file ++ p.buf, []⟩)

/-- Models the gob decode loop of `doSortWrite` applied to the concatenated
flushed chunks of one staging file: the chunks are consecutive pieces of a
single encoder's stream, so decoding the concatenation returns exactly the
encoded record sequence. -/
def decodeStaging (bs : List rec_t) : List rec_t := bs

/-- The final output triple that the pipeline produces for partition `y`
from the arrival order `obs`: outer `none` means the run aborted, inner
`none` means no staging directory exists for `y`. -/
def pipelineOut (sz : rec_t → Nat) (th : Nat) (obs : List rec_t) (y : Int) :
    Option (Option (List (List Char) × List String × List ℚ)) :=
  (processObs sz th obs initState).map
    (fun st => (finalFlush st y).map (fun p => doSortOut (decodeStaging p.file)))

/-- The concrete input lines used in the claims, as character lists. -/
def c1line : List Char := ("USC00123456201606TMAX   67      71 Q ").data

/-- A line whose first daily value field is blank (unparseable) and whose
second daily value field is valid. -/
def c2line : List Char := ("USC00123456201606TMAX           71   ").data

/-- The literal scenario line from the specification. -/
def c4line : List Char := ("USC001234562016060112345  0067  0071  9999 ...").data

/-- The scenario line rewritten to the GHCN layout: matching element type
`TMAX`, daily fields `   67`, `   71`, `-9999` with all flag bytes blank. -/
def c4good : List Char := ("USC00123456201606TMAX   67      71   -9999   ").data

/-- A record used in the concluding examples (station AAA, 1900-01-01). -/
def recA : rec_t := { Id := "AAA".data, Year := 1900, Month := 1, Day := 1, Value := 0 }

/-- A record used in the concluding examples (station BBB, 1900-01-02). -/
def recB : rec_t := { Id := "BBB".data, Year := 1900, Month := 1, Day := 2, Value := 5 }

/-- A record whose year 1832 lies just below the eagerly created range. -/
def rec1832 : rec_t := { Id := "AAA".data, Year := 1832, Month := 1, Day := 1, Value := 0 }

/-- A record whose year 1700 lies outside the eagerly created range. -/
def rec1700 : rec_t := { Id := "CA0000".data, Year := 1700, Month := 1, Day := 1, Value := 0 }

/-- Two records sharing the composite key (AAA, 1900, 1, 1) but carrying
different values. -/
def dupA : rec_t := { Id := "AAA".data, Year := 1900, Month := 1, Day := 1, Value := 0 }

/-- Second record with the same composite key as `dupA` but value 1. -/
def dupB : rec_t := { Id := "AAA".data, Year := 1900, Month := 1, Day := 1, Value := 1 }

lemma recLess_iff (a b : rec_t) : recLess a b = true ↔ lexKey a < lexKey b := by
  have hk : lexKey a < lexKey b ↔
      (a.Id < b.Id ∨ (a.Id = b.Id ∧ (a.Year < b.Year ∨ (a.Year = b.Year ∧
        (a.Month < b.Month ∨ (a.Month = b.Month ∧ a.Day < b.Day)))))) := by
    unfold lexKey
    rw [Prod.Lex.lt_iff]
    constructor
    · rintro (h | ⟨he, h2⟩)
      · exact Or.inl h
      · refine Or.inr ⟨he, ?_⟩
        rw [Prod.Lex.lt_iff] at h2
        rcases h2 with h2 | ⟨he2, h3⟩
        · exact Or.inl h2
        · refine Or.inr ⟨he2, ?_⟩
          rw [Prod.Lex.lt_iff] at h3
          exact h3
    · rintro (h | ⟨he, h2 | ⟨he2, h3 | ⟨he3, h4⟩⟩⟩)
      · exact Or.inl h
      · exact Or.inr ⟨he, (Prod.Lex.lt_iff _ _).mpr (Or.inl h2)⟩
      · exact Or.inr ⟨he, (Prod.Lex.lt_iff _ _).mpr
          (Or.inr ⟨he2, (Prod.Lex.lt_iff _ _).mpr (Or.inl h3)⟩)⟩
      · exact Or.inr ⟨he, (Prod.Lex.lt_iff _ _).mpr
          (Or.inr ⟨he2, (Prod.Lex.lt_iff _ _).mpr (Or.inr ⟨he3, h4⟩)⟩)⟩
  rw [hk]
  unfold recLess
  split_ifs with h1 h2 h3 h4 h5 h6 h7 h8
  · exact iff_of_true rfl (Or.inl h1)
  · refine iff_of_false (by simp) ?_
    rintro (h | ⟨he, _⟩)
    · exact absurd h (lt_asymm h2)
    · exact absurd (he ▸ h2) (lt_irrefl _)
  · have he : a.Id = b.Id := le_antisymm (not_lt.mp h2) (not_lt.mp h1)
    exact iff_of_true rfl (Or.inr ⟨he, Or.inl h3⟩)
  · refine iff_of_false (by simp) ?_
    rintro (h | ⟨he, h' | ⟨he2, _⟩⟩)
    · exact absurd h h1
    · omega
    · omega
  · have he : a.Id = b.Id := le_antisymm (not_lt.mp h2) (not_lt.mp h1)
    exact iff_of_true rfl (Or.inr ⟨he, Or.inr ⟨by omega, Or.inl h5⟩⟩)
  · refine iff_of_false (by simp) ?_
    rintro (h | ⟨he, h' | ⟨he2, h'' | ⟨he3, _⟩⟩⟩)
    · exact absurd h h1
    · omega
    · omega
    · omega
  · have he : a.Id = b.Id := le_antisymm (not_lt.mp h2) (not_lt.mp h1)
    exact iff_of_true rfl (Or.inr ⟨he, Or.inr ⟨by omega, Or.inr ⟨by omega, h7⟩⟩⟩)
  · refine iff_of_false (by simp) ?_
    rintro (h | ⟨he, h' | ⟨he2, h'' | ⟨he3, h'''⟩⟩⟩)
    · exact absurd h h1
    · omega
    · omega
    · omega
  · refine iff_of_false (by simp) ?_
    rintro (h | ⟨he, h' | ⟨he2, h'' | ⟨he3, h'''⟩⟩⟩)
    · exact absurd h h1
    · omega
    · omega
    · omega

lemma recLess_false_iff (a b : rec_t) : recLess a b = false ↔ ¬lexKey a < lexKey b := by
  rw [← recLess_iff]
  cases h : recLess a b <;> simp

lemma goLe_iff (a b : rec_t) : goLe a b ↔ lexKey a ≤ lexKey b := by
  unfold goLe
  rw [recLess_false_iff, not_lt]

instance : IsTotal rec_t goLe :=
  ⟨fun a b => by rw [goLe_iff, goLe_iff]; exact le_total _ _⟩

instance : IsTrans rec_t goLe :=
  ⟨fun a b c hab hbc => by
    rw [goLe_iff] at hab hbc ⊢
    exact le_trans hab hbc⟩

instance : IsAntisymm rec_t keyLT :=
  ⟨fun a b h h' => absurd h' (by unfold keyLT at h ⊢; exact lt_asymm h)⟩

lemma sortRecs_perm (x : List rec_t) : (sortRecs x).Perm x :=
  List.perm_insertionSort goLe x

lemma sortRecs_sorted (x : List rec_t) : (sortRecs x).Sorted goLe :=
  List.sorted_insertionSort goLe x

lemma sorted_keyLT_of_nodup {l : List rec_t} (hs : l.Sorted goLe)
    (hn : (l.map lexKey).Nodup) : l.Sorted keyLT := by
  rw [List.Sorted, List.pairwise_iff_getElem] at hs ⊢
  intro i j hi hj hij
  have hle : goLe l[i] l[j] := hs i j hi hj hij
  have hne : lexKey l[i] ≠ lexKey l[j] := by
    intro he
    have hinj := List.nodup_iff_injective_get.mp hn
    have h2 : (⟨i, by simpa using hi⟩ : Fin (l.map lexKey).length) =
        ⟨j, by simpa using hj⟩ := by
      apply hinj
      simp [he]
    have h3 : i = j := by simpa using congrArg Fin.val h2
    omega
  exact lt_of_le_of_ne ((goLe_iff _ _).mp hle) hne

lemma sortRecs_eq_of_perm {la lb : List rec_t} (hp : la.Perm lb)
    (hn : (la.map lexKey).Nodup) : sortRecs la = sortRecs lb := by
  have hperm : (sortRecs la).Perm (sortRecs lb) :=
    (sortRecs_perm la).trans (hp.trans (sortRecs_perm lb).symm)
  have hna : ((sortRecs la).map lexKey).Nodup :=
    (((sortRecs_perm la).map lexKey).nodup_iff).mpr hn
  have hnb0 : (lb.map lexKey).Nodup := (hp.map lexKey).nodup_iff.mp hn
  have hnb : ((sortRecs lb).map lexKey).Nodup :=
    (((sortRecs_perm lb).map lexKey).nodup_iff).mpr hnb0
  exact List.eq_of_perm_of_sorted hperm
    (sorted_keyLT_of_nodup (sortRecs_sorted la) hna)
    (sorted_keyLT_of_nodup (sortRecs_sorted lb) hnb)

lemma initState_isSome (y : Int) :
    (initState y).isSome = true ↔ (1833 ≤ y ∧ y ≤ 2016) := by
  unfold initState
  split <;> simp_all

lemma routeStep_isSome_arg {sz : rec_t → Nat} {th : Nat} {st : ConsumerState}
    {r : rec_t} {st' : ConsumerState} (h : routeStep sz th st r = some st') :
    (st r.Year).isSome = true := by
  unfold routeStep at h
  cases hy : st r.Year with
  | none => rw [hy] at h; cases h
  | some p => simp

lemma routeStep_isSome {sz : rec_t → Nat} {th : Nat} {st : ConsumerState}
    {r : rec_t} {st' : ConsumerState} (h : routeStep sz th st r = some st')
    (y : Int) : (st' y).isSome = (st y).isSome := by
  unfold routeStep at h
  cases hy : st r.Year with
  | none => simp only [hy] at h; exact Option.noConfusion h
  | some p =>
    simp only [hy] at h
    split at h <;> simp only [Option.some.injEq] at h <;> subst h
    · by_cases hyr : y = r.Year
      · subst hyr; simp [hy]
      · simp [hyr]
    · by_cases hyr : y = r.Year
      · subst hyr; simp [hy]
      · simp [hyr]

lemma routeStep_content {sz : rec_t → Nat} {th : Nat} {st : ConsumerState}
    {r : rec_t} {st' : ConsumerState} (h : routeStep sz th st r = some st')
    (y : Int) (p : PartState) (hp : st y = some p) :
    ∃ q, st' y = some q ∧
      q.file ++ q.buf = p.file ++ p.buf ++ List.filter (fun a => a.Year == y) [r] := by
  unfold routeStep at h
  cases hy : st r.Year with
  | none => simp only [hy] at h; exact Option.noConfusion h
  | some pr =>
    simp only [hy] at h
    by_cases hyr : y = r.Year
    · subst hyr
      rw [hy] at hp
      cases hp
      have hfil : List.filter (fun a => a.Year == r.Year) [r] = [r] := by
        simp [List.filter]
      split at h <;> simp only [Option.some.injEq] at h <;> subst h
      · refine ⟨{ file := p.file ++ (p.buf ++ [r]), buf := [] }, by simp, ?_⟩
        simp [hfil, List.append_assoc]
      · refine ⟨{ file := p.file, buf := p.buf ++ [r] }, by simp, ?_⟩
        simp [hfil, List.append_assoc]
    · have hfil : List.filter (fun a => a.Year == y) [r] = [] := by
        have hb : (r.Year == y) = false := by
          simp only [beq_eq_false_iff_ne, ne_eq]
          intro he
          exact hyr he.symm
        simp [List.filter, hb]
      split at h <;> simp only [Option.some.injEq] at h <;> subst h
      · exact ⟨p, by simp [hyr, hp], by simp [hfil]⟩
      · exact ⟨p, by simp [hyr, hp], by simp [hfil]⟩

lemma processObs_isSome {sz : rec_t → Nat} {th : Nat} :
    ∀ {obs : List rec_t} {st st' : ConsumerState},
      processObs sz th obs st = some st' → ∀ y, (st' y).isSome = (st y).isSome := by
  intro obs
  induction obs with
  | nil =>
    intro st st' h y
    cases h
    rfl
  | cons r rs ih =>
    intro st st' h y
    unfold processObs at h
    cases hr : routeStep sz th st r with
    | none => rw [hr] at h; cases h
    | some st1 =>
      rw [hr] at h
      rw [ih h y, routeStep_isSome hr y]

lemma processObs_content {sz : rec_t → Nat} {th : Nat} :
    ∀ {obs : List rec_t} {st st' : ConsumerState},
      processObs sz th obs st = some st' → ∀ (y : Int) (p : PartState), st y = some p →
        ∃ q, st' y = some q ∧
          q.file ++ q.buf = p.file ++ p.buf ++ List.filter (fun a => a.Year == y) obs := by
  intro obs
  induction obs with
  | nil =>
    intro st st' h y p hp
    cases h
    exact ⟨p, hp, by simp⟩
  | cons r rs ih =>
    intro st st' h y p hp
    unfold processObs at h
    cases hr : routeStep sz th st r with
    | none => rw [hr] at h; cases h
    | some st1 =>
      rw [hr] at h
      obtain ⟨q1, hq1, hc1⟩ := routeStep_content hr y p hp
      obtain ⟨q, hq, hc⟩ := ih h y q1 hq1
      refine ⟨q, hq, ?_⟩
      rw [hc, hc1, List.filter_cons]
      by_cases hb : (r.Year == y) = true <;>
        simp [hb, List.filter, List.append_assoc]

lemma processObs_success {sz : rec_t → Nat} {th : Nat} :
    ∀ {obs : List rec_t} {st : ConsumerState},
      (∀ r ∈ obs, (st r.Year).isSome = true) →
        ∃ st', processObs sz th obs st = some st' := by
  intro obs
  induction obs with
  | nil => exact fun _ => ⟨_, rfl⟩
  | cons r rs ih =>
    intro st hall
    obtain ⟨p, hp⟩ := Option.isSome_iff_exists.mp (hall r (List.mem_cons_self r rs))
    have hstep : ∃ st1, routeStep sz th st r = some st1 := by
      unfold routeStep
      simp only [hp]
      split <;> exact ⟨_, rfl⟩
    obtain ⟨st1, h1⟩ := hstep
    obtain ⟨st', h2⟩ := @ih st1 (fun a ha => by
      rw [routeStep_isSome h1]
      exact hall a (List.mem_cons_of_mem r ha))
    refine ⟨st', ?_⟩
    unfold processObs
    rw [h1]
    exact h2

lemma processObs_mem_isSome {sz : rec_t → Nat} {th : Nat} :
    ∀ {obs : List rec_t} {st st' : ConsumerState},
      processObs sz th obs st = some st' → ∀ r ∈ obs, (st r.Year).isSome = true := by
  intro obs
  induction obs with
  | nil => intro st st' _ r hr; cases hr
  | cons a rs ih =>
    intro st st' h r hr
    unfold processObs at h
    cases hstep : routeStep sz th st a with
    | none => rw [hstep] at h; cases h
    | some st1 =>
      rw [hstep] at h
      rcases List.mem_cons.mp hr with rfl | hmem
      · exact routeStep_isSome_arg hstep
      · rw [← routeStep_isSome hstep r.Year]
        exact ih h r hmem

/-- C1: on the line `c1line` (element TMAX, day-1 field `   67` with all its
flag bytes blank, day-2 field `   71` with its own quality-flag byte `Q`),
the columnizing parser emits BOTH daily values — it never looks at day 2's
own flag byte, only at the fixed byte at offset 26 — while the per-field
variant in gcos_monthly_concurrent.go marks day 2 invalid.  The claim (each
repeating field's own flag byte is checked, and a non-blank flag discards
exactly that field, so emitted observations = non-missing own-flag-blank
fields) is the documented GHCN format and the sister script's behaviour;
gcos_columnize.go's fixed `line[26]` test contradicts it. -/
theorem c1_flag_fixed_offset :
    goParse c1line =
        some [{ Id := "USC00123456".data, Year := 2016, Month := 6, Day := 1, Value := 67/10 },
          { Id := "USC00123456".data, Year := 2016, Month := 6, Day := 2, Value := 71/10 }] ∧
      (parseMonthly c1line).map (fun l => l.IsValid) = some [true, false] := by
  exact ⟨by rfl, by rfl⟩

/-- C2 (counterexample): on the line `c2line`, whose first daily field is
unparseable (all blanks) and whose second daily field is a valid reading 7.1,
the columnizing parser aborts the whole run (`none`) — it does not skip the
bad value and emit the rest of the line. -/
theorem c2_counterexample :
    goParse c2line = none ∧
      goParse c2line ≠
        some [{ Id := "USC00123456".data, Year := 2016, Month := 6, Day := 2, Value := 71/10 }] := by
  exact ⟨by decide, by decide⟩

lemma parseDays_none_of_bad {cs : List Char} {id : List Char} {year month : Int}
    {ks : List Nat} {k : Nat} (hflag : cs[26]? = some ' ') (hk : k ∈ ks)
    (hbad : parseField cs k = none) :
    parseDays cs id year month ks = none := by
  induction ks with
  | nil => cases hk
  | cons a ks ih =>
    simp only [parseDays, hflag]
    rw [if_neg (by simp)]
    rcases List.mem_cons.mp hk with rfl | hmem
    · rw [hbad]
    · cases hf : parseField cs a with
      | none => rfl
      | some v =>
        by_cases hv : v = -9999
        · simp [hv, ih hmem]
        · simp [hv, ih hmem]

/-- C2 (amended): an unparseable 5-character daily value field does not
produce a value-level skip; whenever the fixed flag byte at offset 26 is
blank (so the field loop actually reads the values) and some field within
the line fails to parse, the whole parse — and hence the run — aborts. -/
theorem c2_unparseable_aborts (cs : List Char) (k : Nat)
    (hflag : cs[26]? = some ' ') (hk : k < numFields cs)
    (hbad : parseField cs k = none) :
    goParse cs = none := by
  unfold goParse
  cases hy : atoi ((cs.drop 11).take 4) with
  | none => rfl
  | some year =>
    cases hm : atoi ((cs.drop 15).take 2) with
    | none => rfl
    | some month =>
      exact parseDays_none_of_bad hflag (List.mem_range.mpr hk) hbad

/-- Witness for `c2_unparseable_aborts` at the concrete line `c2line`
(field 0 blank, hence unparseable). -/
theorem c2_unparseable_aborts_witness : goParse c2line = none :=
  c2_unparseable_aborts c2line 0 (by decide) (by decide) (by decide)

/-- C4 (counterexample): the literal scenario line from the specification
emits NO observation at all: its element-type bytes `line[17:21]` are
`0112`, so the filter skips it; and even fed directly to the parser it emits
nothing, because its byte at offset 26 is `0` (non-blank), which makes the
fixed flag test discard every daily field. -/
theorem c4_counterexample :
    processLine ("TMAX".data) c4line = some [] ∧ goParse c4line = some [] := by
  exact ⟨by decide, by decide⟩

/-- C4 (amended): rewriting the scenario line to the layout the parser
actually reads — element type `TMAX` at bytes 17..20, daily fields `   67`,
`   71`, `-9999` in 8-byte cells with blank flag bytes — the parser emits
exactly two observations for station USC00123456, year 2016, month 06, at
days 1 and 2, with values 6.7 and 7.1 (tenths divided by 10), and the field
holding the missing sentinel `-9999` (not `9999`) is skipped. -/
theorem c4_scenario_corrected :
    processLine ("TMAX".data) c4good =
      some [{ Id := "USC00123456".data, Year := 2016, Month := 6, Day := 1, Value := 67/10 },
        { Id := "USC00123456".data, Year := 2016, Month := 6, Day := 2, Value := 71/10 }] := by
  rfl

/-- C3 (counterexample): buffers are not created lazily.  The buffer for the
year 1900 exists (empty, with truncated staging file) before any observation
has been routed, and routing an observation for a previously unseen
partition value (year 1832, one below the eagerly created range) does not create
a buffer — the consumer hits the nil-encoder branch and the run aborts. -/
theorem c3_counterexample :
    initState 1900 = some { file := [], buf := [] } ∧
      processObs (fun _ => 1) 10 [rec1832] initState = none := by
  exact ⟨by decide, by rfl⟩

/-- C3 (amended): `processRaw` creates the buffer and the truncated staging
file for every year 1833..2016 eagerly at pipeline start, before the first
observation; routing an observation whose year has no buffer (outside that
range) aborts the run instead of creating one. -/
theorem c3_eager_creation :
    (∀ y : Int, 1833 ≤ y → y ≤ 2016 → initState y = some { file := [], buf := [] }) ∧
      (∀ (sz : rec_t → Nat) (th : Nat) (r : rec_t),
        (r.Year < 1833 ∨ 2016 < r.Year) → routeStep sz th initState r = none) := by
  constructor
  · intro y h1 h2
    unfold initState
    rw [if_pos ⟨h1, h2⟩]
  · intro sz th r h
    have hnone : initState r.Year = none := by
      unfold initState
      rw [if_neg]
      omega
    unfold routeStep
    simp only [hnone]

/-- Witness for `c3_eager_creation` at year 1850 and at the record `rec1700`. -/
theorem c3_eager_creation_witness :
    initState 1850 = some { file := [], buf := [] } ∧
      routeStep (fun _ => 1) 5 initState rec1700 = none :=
  ⟨c3_eager_creation.1 1850 (by decide) (by decide),
   c3_eager_creation.2 (fun _ => 1) 5 rec1700 (Or.inl (by decide))⟩

/-- C5: for every partition year `y` in range and every flush threshold,
after the run and the final flush the partition's staging file decodes to
exactly the sequence of observations routed to that partition, with an empty
buffer left behind; and the staged result is identical for any two
threshold values. -/
theorem c5_roundtrip (sz : rec_t → Nat) (tha thb : Nat) (obs : List rec_t)
    (y : Int) (sta stb : ConsumerState)
    (hy1 : 1833 ≤ y) (hy2 : y ≤ 2016)
    (ha : processObs sz tha obs initState = some sta)
    (hb : processObs sz thb obs initState = some stb) :
    (∃ q, finalFlush sta y = some q ∧ q.buf = [] ∧
        decodeStaging q.file = obs.filter (fun a => a.Year == y)) ∧
      finalFlush sta y = finalFlush stb y := by
  have hinit : initState y = some { file := [], buf := [] } := by
    unfold initState
    rw [if_pos ⟨hy1, hy2⟩]
  obtain ⟨qa, hqa, hca⟩ := processObs_content ha y _ hinit
  obtain ⟨qb, hqb, hcb⟩ := processObs_content hb y _ hinit
  simp only [List.nil_append] at hca hcb
  constructor
  · refine ⟨{ file := qa.file ++ qa.buf, buf := [] }, ?_, rfl, ?_⟩
    · unfold finalFlush
      rw [hqa]
      rfl
    · simpa [decodeStaging] using hca
  · unfold finalFlush
    rw [hqa, hqb]
    have heq : qa.file ++ qa.buf = qb.file ++ qb.buf := by rw [hca, hcb]
    simp [heq]

/-- Witness for `c5_roundtrip`: one observation, thresholds 0 (flushes at
once) and 5 (keeps the record buffered until the final flush). -/
theorem c5_roundtrip_witness :
    (∃ q, finalFlush
          (fun y => if y = recA.Year then some { file := [recA], buf := [] } else initState y)
          1900 = some q ∧ q.buf = [] ∧
        decodeStaging q.file = [recA].filter (fun a => a.Year == 1900)) ∧
      finalFlush
          (fun y => if y = recA.Year then some { file := [recA], buf := [] } else initState y)
          1900 =
        finalFlush
          (fun y => if y = recA.Year then some { file := [], buf := [recA] } else initState y)
          1900 :=
  c5_roundtrip (fun _ => 1) 0 5 [recA] 1900
    (fun y => if y = recA.Year then some { file := [recA], buf := [] } else initState y)
    (fun y => if y = recA.Year then some { file := [], buf := [recA] } else initState y)
    (by decide) (by decide) (by rfl) (by rfl)

/-- C8: routing appends the record to its partition's buffer; if the
buffer's accumulated size then exceeds the threshold, the buffer's full
contents are appended to the staging file and the buffer is cleared,
otherwise the buffer keeps growing; and the shutdown flush unconditionally
appends every buffer's remaining contents to its staging file, leaving every
buffer empty — no buffered observation is left unwritten. -/
theorem c8_flush_policy (sz : rec_t → Nat) (th : Nat) (st : ConsumerState)
    (r : rec_t) (y : Int) (p q : PartState)
    (h1 : st r.Year = some p) (h2 : st y = some q) :
    (∃ st', routeStep sz th st r = some st' ∧
        st' r.Year = some (if (List.map sz (p.buf ++ [r])).sum > th
          then { file := p.file ++ (p.buf ++ [r]), buf := [] }
          else { file := p.file, buf := p.buf ++ [r] })) ∧
      finalFlush st y = some { file := q.file ++ q.buf, buf := [] } := by
  constructor
  · by_cases hc : (List.map sz (p.buf ++ [r])).sum > th
    · refine ⟨fun z => if z = r.Year
          then some { file := p.file ++ (p.buf ++ [r]), buf := [] } else st z, ?_, ?_⟩
      · unfold routeStep
        simp only [h1]
        rw [if_pos hc]
      · rw [if_pos hc]
        simp
    · refine ⟨fun z => if z = r.Year
          then some { file := p.file, buf := p.buf ++ [r] } else st z, ?_, ?_⟩
      · unfold routeStep
        simp only [h1]
        rw [if_neg hc]
      · rw [if_neg hc]
        simp
  · unfold finalFlush
    rw [h2]
    rfl

/-- Witness for `c8_flush_policy`: threshold 0 at the initial state, so the
single appended record immediately exceeds the threshold. -/
theorem c8_flush_policy_witness :
    (∃ st', routeStep (fun _ => 1) 0 initState recA = some st' ∧
        st' recA.Year = some (if (List.map (fun _ => 1) (([] : List rec_t) ++ [recA])).sum > 0
          then { file := ([] : List rec_t) ++ ([] ++ [recA]), buf := [] }
          else { file := ([] : List rec_t), buf := ([] : List rec_t) ++ [recA] })) ∧
      finalFlush initState 1901 = some { file := ([] : List rec_t) ++ [], buf := [] } :=
  c8_flush_policy (fun _ => 1) 0 initState recA 1901 { file := [], buf := [] }
    { file := [], buf := [] } (by decide) (by decide)

/-- C10: partition buffers exist exactly for the years 1833..2016, created
eagerly at pipeline start; if every routed observation's year lies in that
range the nil-buffer panic branch is unreachable and the consumer completes;
and any observation with a year outside the range makes the run abort. -/
theorem c10_year_range (sz : rec_t → Nat) (th : Nat) (obs : List rec_t) :
    (∀ y : Int, initState y = some { file := [], buf := [] } ↔ (1833 ≤ y ∧ y ≤ 2016)) ∧
      ((∀ r ∈ obs, 1833 ≤ r.Year ∧ r.Year ≤ 2016) →
        ∃ st, processObs sz th obs initState = some st) ∧
      (∀ r ∈ obs, (r.Year < 1833 ∨ 2016 < r.Year) →
        processObs sz th obs initState = none) := by
  refine ⟨?_, ?_, ?_⟩
  · intro y
    by_cases h : 1833 ≤ y ∧ y ≤ 2016
    · simp [initState, h]
    · simp [initState, h]
  · intro hall
    exact processObs_success (fun r hm => (initState_isSome _).mpr (hall r hm))
  · intro r hm hout
    cases hres : processObs sz th obs initState with
    | none => rfl
    | some st =>
      have hin := (initState_isSome r.Year).mp (processObs_mem_isSome hres r hm)
      omega

/-- Witness for `c10_year_range`: the buffer for 1850 exists at start, and a
single observation for year 1700 aborts the run. -/
theorem c10_year_range_witness :
    initState 1850 = some { file := [], buf := [] } ∧
      processObs (fun _ => 1) 3 [rec1700] initState = none :=
  ⟨((c10_year_range (fun _ => 1) 3 [rec1700]).1 1850).mpr (by decide),
   (c10_year_range (fun _ => 1) 3 [rec1700]).2.2 rec1700 (List.mem_singleton.mpr rfl)
     (by decide)⟩

/-- C6: in the sorted output of a partition, every adjacent pair of records
is ordered by the composite key (station id, year, month, day): the key at
position `i` is less than or equal to the key at position `i+1`, ties on the
station id being broken by year, then month, then day (the lexicographic
key order). -/
theorem c6_sort_invariant (x : List rec_t) (i : Nat)
    (h : i + 1 < (sortRecs x).length) :
    lexKey ((sortRecs x).get ⟨i, Nat.lt_of_succ_lt h⟩) ≤
      lexKey ((sortRecs x).get ⟨i + 1, h⟩) := by
  have hrel := List.Sorted.rel_get_of_lt (sortRecs_sorted x)
    (a := ⟨i, Nat.lt_of_succ_lt h⟩) (b := ⟨i + 1, h⟩) (by simp [Fin.lt_def])
  exact (goLe_iff _ _).mp hrel

/-- Witness for `c6_sort_invariant` on the two-record list `[recB, recA]`. -/
theorem c6_sort_invariant_witness :
    lexKey ((sortRecs [recB, recA]).get ⟨0, by decide⟩) ≤
      lexKey ((sortRecs [recB, recA]).get ⟨1, by decide⟩) :=
  c6_sort_invariant [recB, recA] 0 (by decide)

/-- C7: the three output sequences of a partition (identifiers, dates,
values) have equal length, and at every index all three entries are the
projections of one and the same source record (a member of the staged
record list). -/
theorem c7_alignment (x : List rec_t) (i : Nat) (hi : i < x.length) :
    ((doSortOut x).1.length = x.length ∧ (doSortOut x).2.1.length = x.length ∧
        (doSortOut x).2.2.length = x.length) ∧
      ∃ r, r ∈ x ∧ (doSortOut x).1[i]? = some r.Id ∧
        (doSortOut x).2.1[i]? = some (dateStr r.Year r.Month r.Day) ∧
        (doSortOut x).2.2[i]? = some r.Value := by
  have hlen : (sortRecs x).length = x.length := (sortRecs_perm x).length_eq
  constructor
  · simp [doSortOut, outTriple, hlen]
  · have hi' : i < (sortRecs x).length := by omega
    refine ⟨(sortRecs x).get ⟨i, hi'⟩, ?_, ?_, ?_, ?_⟩
    · exact (sortRecs_perm x).mem_iff.mp (List.get_mem _ _ _)
    · simp [doSortOut, outTriple, List.getElem?_eq_getElem, hi']
    · simp [doSortOut, outTriple, List.getElem?_eq_getElem, hi']
    · simp [doSortOut, outTriple, List.getElem?_eq_getElem, hi']

/-- Witness for `c7_alignment` on the two-record list `[recB, recA]` at
index 0. -/
theorem c7_alignment_witness :
    ((doSortOut [recB, recA]).1.length = [recB, recA].length ∧
        (doSortOut [recB, recA]).2.1.length = [recB, recA].length ∧
        (doSortOut [recB, recA]).2.2.length = [recB, recA].length) ∧
      ∃ r, r ∈ [recB, recA] ∧ (doSortOut [recB, recA]).1[0]? = some r.Id ∧
        (doSortOut [recB, recA]).2.1[0]? = some (dateStr r.Year r.Month r.Day) ∧
        (doSortOut [recB, recA]).2.2[0]? = some r.Value :=
  c7_alignment [recB, recA] 0 (by decide)

lemma processObs_init_eq_none_iff {sz : rec_t → Nat} {th : Nat} {obs : List rec_t} :
    processObs sz th obs initState = none ↔
      ¬(∀ r ∈ obs, 1833 ≤ r.Year ∧ r.Year ≤ 2016) := by
  constructor
  · intro h hall
    obtain ⟨st, hst⟩ := @processObs_success sz th obs initState
      (fun r hm => (initState_isSome _).mpr (hall r hm))
    rw [h] at hst
    cases hst
  · intro hno
    cases hres : processObs sz th obs initState with
    | none => rfl
    | some st =>
      exact absurd
        (fun r hm => (initState_isSome _).mp (processObs_mem_isSome hres r hm)) hno

lemma initState_eq_some {y : Int} {p : PartState} (h : initState y = some p) :
    p = { file := [], buf := [] } := by
  unfold initState at h
  split at h
  · cases h; rfl
  · cases h

/-- C9 (counterexample): the final output triple is NOT a function of the
input multiset alone.  The records `dupA` and `dupB` share the composite key
(AAA, 1900, 1, 1) but carry different values; delivering them to the
aggregation point in the two possible orders — both legal interleavings of
the same fixed input set under concurrent ingest — produces different sorted
output triples (the tie order, and hence the values column, follows arrival
order). -/
theorem c9_counterexample :
    ([dupA, dupB] : List rec_t).Perm [dupB, dupA] ∧
      pipelineOut (fun _ => 1) 100 [dupA, dupB] 1900 ≠
        pipelineOut (fun _ => 1) 100 [dupB, dupA] 1900 := by
  exact ⟨List.Perm.swap dupB dupA [], by decide⟩

/-- C9 (amended): provided no two routed observations share the composite
key (station id, year, month, day), the final output triple of every
partition is a deterministic function of the input multiset alone: any
arrival order at the aggregation point (any permutation; concurrency bound 1
versus 50, or a re-run) and any flush-threshold value produce identical
output triples. -/
theorem c9_determinism_distinct_keys (sz : rec_t → Nat) (tha thb : Nat)
    (la lb : List rec_t) (y : Int) (hp : la.Perm lb)
    (hn : (la.map lexKey).Nodup) :
    pipelineOut sz tha la y = pipelineOut sz thb lb y := by
  by_cases hall : ∀ r ∈ la, 1833 ≤ r.Year ∧ r.Year ≤ 2016
  · have hallb : ∀ r ∈ lb, 1833 ≤ r.Year ∧ r.Year ≤ 2016 := fun r hm =>
      hall r (hp.mem_iff.mpr hm)
    obtain ⟨sta, hsta⟩ := @processObs_success sz tha la initState
      (fun r hm => (initState_isSome _).mpr (hall r hm))
    obtain ⟨stb, hstb⟩ := @processObs_success sz thb lb initState
      (fun r hm => (initState_isSome _).mpr (hallb r hm))
    unfold pipelineOut
    rw [hsta, hstb]
    refine congrArg some ?_
    dsimp only
    cases hin : initState y with
    | none =>
      have ha0 : sta y = none := by
        have h := processObs_isSome hsta y
        rw [hin] at h
        simpa using h
      have hb0 : stb y = none := by
        have h := processObs_isSome hstb y
        rw [hin] at h
        simpa using h
      simp only [finalFlush]
      rw [ha0, hb0]
    | some p =>
      have hp0 := initState_eq_some hin
      subst hp0
      obtain ⟨qa, hqa, hca⟩ := processObs_content hsta y _ hin
      obtain ⟨qb, hqb, hcb⟩ := processObs_content hstb y _ hin
      simp only [List.nil_append] at hca hcb
      simp only [finalFlush]
      rw [hqa, hqb]
      have hnfil : ((la.filter (fun a => a.Year == y)).map lexKey).Nodup := by
        refine List.Nodup.sublist ?_ hn
        exact (List.filter_sublist la).map lexKey
      have hsort : sortRecs (la.filter (fun a => a.Year == y)) =
          sortRecs (lb.filter (fun a => a.Year == y)) :=
        sortRecs_eq_of_perm (hp.filter _) hnfil
      dsimp only [Option.map]
      unfold doSortOut decodeStaging
      rw [hca, hcb, hsort]
  · have ha : processObs sz tha la initState = none :=
      processObs_init_eq_none_iff.mpr hall
    have hb : processObs sz thb lb initState = none :=
      processObs_init_eq_none_iff.mpr
        (fun hallb => hall (fun r hm => hallb r (hp.mem_iff.mp hm)))
    unfold pipelineOut
    rw [ha, hb]

/-- Witness for `c9_determinism_distinct_keys`: two distinct-key records in
either arrival order, thresholds 3 versus 7. -/
theorem c9_determinism_distinct_keys_witness :
    pipelineOut (fun _ => 1) 3 [recA, recB] 1900 =
      pipelineOut (fun _ => 1) 7 [recB, recA] 1900 :=
  c9_determinism_distinct_keys (fun _ => 1) 3 7 [recA, recB] [recB, recA] 1900
    (List.Perm.swap recB recA []) (by decide)
